import Mathlib

/-!
Verification development for the Parcoursup formation monitor
(src/monitor.py). The core under study is the change-detection and
filtering pipeline: identity resolution (get_unique_id), snapshot
diffing (detect_new_formations), the filter chain (apply_filters) and
the notification decision computed inline in main.

Formation records are loosely typed JSON objects, so they are embedded
as association lists over a JSON value type with Python truthiness.
Numbers are modelled as rationals. The haversine distance
(calculate_distance, transcendental floating-point arithmetic) is taken
as a parameter of the filter chain; every theorem about the chain is
proved for an arbitrary distance oracle and therefore holds for the
haversine in particular.

Per section 7 of the design spec, a malformed record field (a value of
the wrong dynamic type in a field the code lowercases or feeds to the
distance computation) is treated as absent or default rather than
raising; the embedding follows that stated error model at the two
places where CPython would raise on an ill-typed field.
-/

set_option maxHeartbeats 1000000

/-- JSON-like values carried by formation records. Numbers are modelled
as rationals. -/
inductive JVal where
  | null
  | bool (b : Bool)
  | num (q : ℚ)
  | str (s : String)
  | arr (items : List JVal)
  | obj (fields : List (String × JVal))

/-- A formation record: a Python dict from field names to values,
embedded as an association list in insertion order. -/
abbrev Rec := List (String × JVal)

/-- First value stored under a key, mirroring Python dict access
(Python dicts have unique keys, so first-match lookup is exact). -/
def lookupKey : Rec → String → Option JVal
  | [], _ => none
  | (k', v) :: rest, k => if k' = k then some v else lookupKey rest k

/-- Python dict.get with default None: absent keys read as null. -/
def getVal (r : Rec) (k : String) : JVal :=
  (lookupKey r k).getD JVal.null

/-- Python truthiness of a JSON value: None, False, 0, empty string,
empty list and empty dict are falsy, everything else truthy. -/
def truthy : JVal → Bool
  | JVal.null => false
  | JVal.bool b => b
  | JVal.num q => decide (q ≠ 0)
  | JVal.str s => !s.isEmpty
  | JVal.arr xs => !xs.isEmpty
  | JVal.obj fs => !fs.isEmpty

/-- The Python expression a or b: the left operand if truthy, else the
right operand. -/
def pyOr (a b : JVal) : JVal :=
  if truthy a then a else b

/-- Python dict assignment d[k] = v: overwrite in place when the key is
present, append when it is not. -/
def setKey : Rec → String → JVal → Rec
  | [], k, v => [(k, v)]
  | (k', v') :: rest, k, v =>
    if k' = k then (k, v) :: rest else (k', v') :: setKey rest k v

/-- Remove every binding of a key; used to compare records up to the
derived distance annotation. -/
def eraseKey (k : String) (r : Rec) : Rec :=
  r.filter (fun p => decide (p.1 ≠ k))

/-- ASCII lowercasing of a string, mirroring str.lower on the record
fields the monitor handles. -/
def pyLower (s : String) : String :=
  ⟨s.data.map Char.toLower⟩

/-- Replace every space by an underscore, mirroring
str.replace(" ", "_") for the single-character pattern used in
get_unique_id. -/
def underscoreSpaces (s : String) : String :=
  ⟨s.data.map (fun c => if c = ' ' then '_' else c)⟩

/-- Whether the needle is a prefix of the haystack, on character
lists. -/
def charsPrefixOf : List Char → List Char → Bool
  | [], _ => true
  | _ :: _, [] => false
  | c :: cs, d :: ds => decide (c = d) && charsPrefixOf cs ds

/-- Whether the needle occurs contiguously in the haystack; first
argument is the haystack. -/
def charsContains : List Char → List Char → Bool
  | [], needle => needle.isEmpty
  | c :: t, needle => charsPrefixOf needle (c :: t) || charsContains t needle

/-- The Python substring test needle in hay. -/
def strIn (needle hay : String) : Bool :=
  charsContains hay.data needle.data

/-- Decimal-style rendering of a rational, standing in for the Python
textual form of a number. No claim observes the exact digits: rendered
numbers are only ever concatenated into identity strings or serialized
records, and both sides of every theorem render them the same way. -/
def ratStr (q : ℚ) : String :=
  if q.den = 1 then toString q.num
  else toString q.num ++ "/" ++ toString q.den

mutual

/-- Python str() of a value, as interpolated by the f-strings in
get_unique_id. Containers render structurally; no claim observes the
exact rendering of nested containers. -/
def pyStr : JVal → String
  | JVal.null => "None"
  | JVal.bool true => "True"
  | JVal.bool false => "False"
  | JVal.num q => ratStr q
  | JVal.str s => s
  | JVal.arr xs => "[" ++ pyStrList xs ++ "]"
  | JVal.obj fs => "\x7b" ++ pyStrFields fs ++ "\x7d"

/-- Comma-separated rendering of array elements for pyStr. -/
def pyStrList : List JVal → String
  | [] => ""
  | [x] => pyStr x
  | x :: y :: rest => pyStr x ++ ", " ++ pyStrList (y :: rest)

/-- Comma-separated rendering of object fields for pyStr. -/
def pyStrFields : List (String × JVal) → String
  | [] => ""
  | [(k, v)] => k ++ ": " ++ pyStr v
  | (k, v) :: p :: rest => k ++ ": " ++ pyStr v ++ ", " ++ pyStrFields (p :: rest)

end

/-- JSON string escaping for the characters json.dumps escapes with
ensure_ascii set to False. -/
def escChar (c : Char) : String :=
  if c = '"' then "\\\""
  else if c = '\\' then "\\\\"
  else if c = '\n' then "\\n"
  else if c = '\t' then "\\t"
  else if c = '\r' then "\\r"
  else String.singleton c

/-- Escape a whole string for JSON serialization. -/
def jsonEscape (s : String) : String :=
  s.data.foldl (fun acc c => acc ++ escChar c) ""

mutual

/-- json.dumps of a value with ensure_ascii set to False and default
separators, used by the keyword filter stages for their full-text
scan. -/
def dumpJ : JVal → String
  | JVal.null => "null"
  | JVal.bool true => "true"
  | JVal.bool false => "false"
  | JVal.num q => ratStr q
  | JVal.str s => "\"" ++ jsonEscape s ++ "\""
  | JVal.arr xs => "[" ++ dumpJList xs ++ "]"
  | JVal.obj fs => "\x7b" ++ dumpJFields fs ++ "\x7d"

/-- Comma-separated serialization of array elements for dumpJ. -/
def dumpJList : List JVal → String
  | [] => ""
  | [x] => dumpJ x
  | x :: y :: rest => dumpJ x ++ ", " ++ dumpJList (y :: rest)

/-- Comma-separated serialization of object fields for dumpJ. -/
def dumpJFields : List (String × JVal) → String
  | [] => ""
  | [(k, v)] => "\"" ++ jsonEscape k ++ "\": " ++ dumpJ v
  | (k, v) :: p :: rest =>
    "\"" ++ jsonEscape k ++ "\": " ++ dumpJ v ++ ", " ++ dumpJFields (p :: rest)

end

/-- Serialization of a whole record, json.dumps(f, ensure_ascii=False). -/
def dumpRec (f : Rec) : String :=
  dumpJ (JVal.obj f)

/-- Value of a field interpolated into the composite identity:
formation.get(key, "unknown") followed by f-string conversion. A
present value is stringified even when it is not a string; only an
absent key yields the placeholder. -/
def fieldOrUnknown (f : Rec) (k : String) : String :=
  match lookupKey f k with
  | some v => pyStr v
  | none => "unknown"

/-- get_unique_id from monitor.py lines 206 to 222: a uai-prefixed code
when code_uai is present, otherwise the lowercased, space-underscored
composite of session, formation name, establishment and city with
unknown placeholders for absent fields. -/
def get_unique_id (f : Rec) : String :=
  match lookupKey f "code_uai" with
  | some v => "uai_" ++ pyStr v
  | none =>
    underscoreSpaces (pyLower
      ("composite_" ++ fieldOrUnknown f "session"
        ++ "_" ++ fieldOrUnknown f "libelle_formation"
        ++ "_" ++ fieldOrUnknown f "libelle_etablissement"
        ++ "_" ++ fieldOrUnknown f "ville"))

/-- detect_new_formations from monitor.py lines 258 to 273: empty
result on an empty previous snapshot, otherwise the current records
whose identity is absent from the set of previous identities. -/
def detect_new_formations (current previous : List Rec) : List Rec :=
  if previous.isEmpty then []
  else
    let previous_ids := previous.map get_unique_id
    current.filter (fun f => !(previous_ids.contains (get_unique_id f)))

/-- The filter parameters of the configuration, section 3 of the spec:
list-valued parameters are typed as string lists and the optional
numeric parameters as optional rationals, matching the validated
configuration structure the config collaborator supplies. Absent and
null both read as none; a falsy value (empty list, missing or zero
number) deactivates the corresponding stage exactly as Python
truthiness does in the source. -/
structure Filters where
  departements : List String
  types_formation : List String
  statut : List String
  keywords_include : List String
  keywords_exclude : List String
  max_distance_km : Option ℚ
  home_lat : Option ℚ
  home_lon : Option ℚ

/-- The run configuration; the filter chain reads the filters
sub-structure, config.get("filters", ...). -/
structure Config where
  filters : Filters

/-- Membership test of a record field value in the configured
department set: Python set membership compares values, so only a string
value can equal a configured department string; None and non-strings
never match. -/
def memDept (depts : List String) : JVal → Bool
  | JVal.str s => depts.contains s
  | _ => false

/-- Department stage, monitor.py lines 316 to 321: when the configured
set is non-empty, keep a record when either of its two department
fields has a value in the set. -/
def deptStage (fl : Filters) (fs : List Rec) : List Rec :=
  if fl.departements.isEmpty then fs
  else fs.filter (fun f =>
    memDept fl.departements (getVal f "departement") ||
    memDept fl.departements (getVal f "code_departement"))

/-- String value of a field with default empty string, as read by the
type and status stages: f.get(k, ""). The source immediately lowercases
the result, which would raise on a present non-string value; per spec
section 7 such a malformed field reads as the default. -/
def getStrField (f : Rec) (k : String) : String :=
  match lookupKey f k with
  | some (JVal.str s) => s
  | _ => ""

/-- Formation type stage, monitor.py lines 324 to 329: keep a record
when some configured type keyword occurs, case-insensitively, in its
type_formation field or in its filiere field. -/
def typeStage (fl : Filters) (fs : List Rec) : List Rec :=
  if fl.types_formation.isEmpty then fs
  else
    let types := fl.types_formation.map pyLower
    fs.filter (fun f =>
      types.any (fun t => strIn t (pyLower (getStrField f "type_formation"))) ||
      types.any (fun t => strIn t (pyLower (getStrField f "filiere"))))

/-- Establishment status stage, monitor.py lines 332 to 336: keep a
record when its lowercased statut_etablissement field is exactly one of
the configured lowercased statuses. -/
def statutStage (fl : Filters) (fs : List Rec) : List Rec :=
  if fl.statut.isEmpty then fs
  else
    let statuts := fl.statut.map pyLower
    fs.filter (fun f => statuts.contains (pyLower (getStrField f "statut_etablissement")))

/-- Keyword include stage, monitor.py lines 339 to 344: keep a record
when some configured keyword occurs in the lowercased JSON
serialization of the whole record. -/
def includeStage (fl : Filters) (fs : List Rec) : List Rec :=
  if fl.keywords_include.isEmpty then fs
  else
    let kws := fl.keywords_include.map pyLower
    fs.filter (fun f => kws.any (fun kw => strIn kw (pyLower (dumpRec f))))

/-- Keyword exclude stage, monitor.py lines 347 to 352: drop a record
when some configured keyword occurs in the lowercased JSON
serialization of the whole record. -/
def excludeStage (fl : Filters) (fs : List Rec) : List Rec :=
  if fl.keywords_exclude.isEmpty then fs
  else
    let kws := fl.keywords_exclude.map pyLower
    fs.filter (fun f => !(kws.any (fun kw => strIn kw (pyLower (dumpRec f)))))

/-- The coordinate container of a record, monitor.py line 364:
f.get("coordonnees") or f.get("coordinates") or an empty dict, with
Python or-chaining on truthiness. -/
def coordObj (f : Rec) : JVal :=
  pyOr (getVal f "coordonnees") (pyOr (getVal f "coordinates") (JVal.obj []))

/-- Resolution of a numeric coordinate pair, monitor.py lines 364 to
369: the container must be a dict, lat falls back from lat to latitude
and lon from lon to longitude by truthiness, and both resolved values
must be truthy. A truthy non-numeric resolved value would raise inside
math.radians in the source; per spec section 7 it reads as unresolvable
and the record is dropped. -/
def resolveLatLon (f : Rec) : Option (ℚ × ℚ) :=
  match coordObj f with
  | JVal.obj cs =>
    let latv := pyOr (getVal cs "lat") (getVal cs "latitude")
    let lonv := pyOr (getVal cs "lon") (getVal cs "longitude")
    if truthy latv && truthy lonv then
      match latv, lonv with
      | JVal.num la, JVal.num lo => some (la, lo)
      | _, _ => none
    else none
  | _ => none

/-- Rounding to one decimal place, round(distance, 1). -/
def round1 (q : ℚ) : ℚ :=
  ((round (q * 10) : ℤ) : ℚ) / 10

/-- The accumulation loop of the distance stage, monitor.py lines 362
to 373: walk the records in order, skip those without a resolvable
coordinate pair, and append a record annotated with its rounded
distance when the distance is within the maximum. The distance oracle
dist stands for calculate_distance. -/
def distLoop (dist : ℚ → ℚ → ℚ → ℚ → ℚ) (mx hla hlo : ℚ) : List Rec → List Rec
  | [] => []
  | f :: rest =>
    match resolveLatLon f with
    | some (la, lo) =>
      let d := dist hla hlo la lo
      if d ≤ mx then
        setKey f "_distance_km" (JVal.num (round1 d)) :: distLoop dist mx hla hlo rest
      else distLoop dist mx hla hlo rest
    | none => distLoop dist mx hla hlo rest

/-- Distance stage, monitor.py lines 354 to 376: active exactly when
the maximum distance and both home coordinates are configured and
truthy, in which case the loop above replaces the record list;
otherwise the records pass through untouched. -/
def distanceStage (dist : ℚ → ℚ → ℚ → ℚ → ℚ) (fl : Filters) (fs : List Rec) : List Rec :=
  match fl.max_distance_km, fl.home_lat, fl.home_lon with
  | some mx, some hla, some hlo =>
    if mx ≠ 0 ∧ hla ≠ 0 ∧ hlo ≠ 0 then distLoop dist mx hla hlo fs else fs
  | _, _, _ => fs

/-- Truthiness of an optional numeric configuration value: present and
nonzero. -/
def truthyOpt : Option ℚ → Bool
  | none => false
  | some q => decide (q ≠ 0)

/-- Whether the distance stage is active, the guard of monitor.py line
358. -/
def distActive (fl : Filters) : Bool :=
  match fl.max_distance_km, fl.home_lat, fl.home_lon with
  | some mx, some hla, some hlo =>
    decide (mx ≠ 0) && decide (hla ≠ 0) && decide (hlo ≠ 0)
  | _, _, _ => false

/-- apply_filters from monitor.py lines 302 to 378: empty input short
circuits to empty output, otherwise the six stages run in their fixed
order, each consuming the output of the previous one. -/
def apply_filters (dist : ℚ → ℚ → ℚ → ℚ → ℚ) (formations : List Rec) (config : Config) : List Rec :=
  if formations.isEmpty then []
  else
    let fl := config.filters
    distanceStage dist fl
      (excludeStage fl
        (includeStage fl
          (statutStage fl
            (typeStage fl
              (deptStage fl formations)))))

/-- The notification decision computed inline in main, monitor.py line
562 (the spec names it should_notify): truthiness of the filtered list,
or of the send_if_no_new configuration entry with default True, or the
first-run flag. -/
def should_send (filtered_new : List Rec) (email_cfg : Rec) (is_first_run : Bool) : Bool :=
  !filtered_new.isEmpty
    || truthy ((lookupKey email_cfg "send_if_no_new").getD (JVal.bool true))
    || is_first_run

/-- Follows the claim wording for the department stage (spec section
4.4 item 1 as read by claim C7): the department code of a record read
by checking the two field names with the first present one winning.
This definition follows the claim, not the source; the source tests
set membership of both fields independently, and the counterexample
below separates the two behaviours. -/
def deptCodeFirstSpec (f : Rec) : Option JVal :=
  match lookupKey f "departement" with
  | some v => some v
  | none => lookupKey f "code_departement"

/-- A concrete distance oracle used only to instantiate witnesses of
theorems that hold for every distance oracle: it reports the latitude
of the target point. -/
def dist0 : ℚ → ℚ → ℚ → ℚ → ℚ :=
  fun _ _ la _ => la

/-- Filters with only the department set configured, as in the spec
scenario with departements equal to the singleton 75. -/
def flDept75 : Filters :=
  ⟨["75"], [], [], [], [], none, none, none⟩

/-- Filters with only the distance stage configured. -/
def flDist : Filters :=
  ⟨[], [], [], [], [], some 10, some 1, some 1⟩

/-- A configuration with every stage inactive. -/
def cfg0 : Config :=
  ⟨⟨[], [], [], [], [], none, none, none⟩⟩

/-- An email configuration with send_if_no_new set to false. -/
def cfgNoSend : Rec :=
  [("send_if_no_new", JVal.bool false)]

/-- Record in department 92 whose establishment code field is in
department 75. -/
def recDept9275 : Rec :=
  [("departement", JVal.str "92"), ("code_departement", JVal.str "75")]

/-- Record in department 75. -/
def recDept75 : Rec :=
  [("departement", JVal.str "75")]

/-- Record in department 92. -/
def recDept92 : Rec :=
  [("departement", JVal.str "92")]

/-- Record with coordinates close to the configured home point under
dist0. -/
def recNear : Rec :=
  [("coordonnees", JVal.obj [("lat", JVal.num 2), ("lon", JVal.num 3)])]

/-- Record with coordinates far from the configured home point under
dist0. -/
def recFar : Rec :=
  [("coordonnees", JVal.obj [("lat", JVal.num 50), ("lon", JVal.num 30)])]

/-- Record whose latitude field is exactly zero. -/
def recZero : Rec :=
  [("coordonnees", JVal.obj [("lat", JVal.num 0), ("lon", JVal.num 3)])]

/-- Record identified by establishment code A. -/
def recCodeA : Rec :=
  [("code_uai", JVal.str "0750001A"), ("ville", JVal.str "Paris")]

/-- Record identified by establishment code B. -/
def recCodeB : Rec :=
  [("code_uai", JVal.str "0940002B"), ("ville", JVal.str "Creteil")]

/-- Record with the same establishment code as recCodeA but every
other field different. -/
def recCodeA' : Rec :=
  [("code_uai", JVal.str "0750001A"), ("ville", JVal.str "Lyon"),
   ("session", JVal.num 2025), ("libelle_formation", JVal.str "BUT Informatique")]

theorem contains_eq_decide_mem (l : List String) (x : String) :
    l.contains x = decide (x ∈ l) := by
  induction l with
  | nil => rfl
  | cons y t ih =>
    by_cases h : x = y
    · subst h; simp [List.contains_cons]
    · simp [List.contains_cons, h, ih]

theorem isEmpty_false_of_ne_nil {α : Type} {l : List α} (h : l ≠ []) :
    l.isEmpty = false := by
  cases l with
  | nil => exact absurd rfl h
  | cons a t => rfl

/-- C8: for every current snapshot, diffing against an empty previous
snapshot returns the empty sequence rather than the current snapshot;
the first-run case is an ordinary return, not an error. -/
theorem detect_new_first_run (current : List Rec) :
    detect_new_formations current [] = [] := rfl

/-- C1: against a non-empty previous snapshot, the differ returns
exactly the current records whose identity is absent from the set of
previous identities, in the original relative order of current, with no
deduplication among current records sharing an identity (a filter keeps
every matching occurrence); the result is a sublist of current. -/
theorem detect_new_formations_diff (current previous : List Rec) (h : previous ≠ []) :
    detect_new_formations current previous =
      current.filter (fun f => decide (get_unique_id f ∉ previous.map get_unique_id))
    ∧ List.Sublist (detect_new_formations current previous) current := by
  have hne : previous.isEmpty = false := isEmpty_false_of_ne_nil h
  constructor
  · unfold detect_new_formations
    rw [hne]
    simp only [Bool.false_eq_true, if_false]
    apply List.filter_congr
    intro f _
    rw [contains_eq_decide_mem, ← decide_not]
  · unfold detect_new_formations
    rw [hne]
    simp only [Bool.false_eq_true, if_false]
    exact List.filter_sublist _

/-- Concrete instance of the differ theorem: two current records, one
of which shares its identity with the single previous record. -/
theorem detect_new_formations_diff_witness :
    detect_new_formations [recCodeA, recCodeB] [recCodeB] = [recCodeA] := by
  have h := detect_new_formations_diff [recCodeA, recCodeB] [recCodeB]
    (List.cons_ne_nil _ _)
  rw [h.1]
  rfl

/-- C5: when the establishment code field is present, the identity is a
function of that code value alone; two records agreeing on code_uai get
the same identity whatever their other fields are. -/
theorem unique_id_code_only (f g : Rec) (v : JVal)
    (hf : lookupKey f "code_uai" = some v) (hg : lookupKey g "code_uai" = some v) :
    get_unique_id f = get_unique_id g := by
  unfold get_unique_id
  rw [hf, hg]

/-- Concrete instance: identical establishment codes, all other fields
different, same identity. -/
theorem unique_id_code_only_witness :
    get_unique_id recCodeA = get_unique_id recCodeA' :=
  unique_id_code_only recCodeA recCodeA' (JVal.str "0750001A") rfl rfl

theorem underscoreSpaces_no_space (s : String) :
    ∀ c ∈ (underscoreSpaces s).data, c ≠ ' ' := by
  intro c hc
  simp only [underscoreSpaces, List.mem_map] at hc
  obtain ⟨a, _, ha⟩ := hc
  by_cases h : a = ' '
  · rw [if_pos h] at ha
    rw [← ha]
    decide
  · rw [if_neg h] at ha
    rw [← ha]
    exact h

/-- C6: without an establishment code the identity is total and equals
the lowercased composite of session, formation name, establishment name
and city, joined and space-normalized with underscores, each absent
field contributing the literal placeholder unknown; in particular the
result contains no space character. Totality is by construction: the
embedding of get_unique_id is a total function on all records. -/
theorem unique_id_fallback_composite (f : Rec) (h : lookupKey f "code_uai" = none) :
    get_unique_id f =
      underscoreSpaces (pyLower
        ("composite_" ++ fieldOrUnknown f "session"
          ++ "_" ++ fieldOrUnknown f "libelle_formation"
          ++ "_" ++ fieldOrUnknown f "libelle_etablissement"
          ++ "_" ++ fieldOrUnknown f "ville"))
    ∧ ∀ c ∈ (get_unique_id f).data, c ≠ ' ' := by
  have e : get_unique_id f =
      underscoreSpaces (pyLower
        ("composite_" ++ fieldOrUnknown f "session"
          ++ "_" ++ fieldOrUnknown f "libelle_formation"
          ++ "_" ++ fieldOrUnknown f "libelle_etablissement"
          ++ "_" ++ fieldOrUnknown f "ville")) := by
    unfold get_unique_id
    rw [h]
  refine ⟨e, ?_⟩
  rw [e]
  exact underscoreSpaces_no_space _

/-- Concrete instance: the empty record resolves to the all-placeholder
composite identity. -/
theorem unique_id_fallback_witness :
    get_unique_id [] = "composite_unknown_unknown_unknown_unknown" := by
  have h := unique_id_fallback_composite [] rfl
  rw [h.1]
  rfl

/-- C4: with the notify-on-empty flag stored as a boolean, the
notification decision is true exactly when the filtered list is
non-empty, or the flag is true, or the run is a first run. -/
theorem should_send_iff (l : List Rec) (cfg : Rec) (b first : Bool)
    (h : lookupKey cfg "send_if_no_new" = some (JVal.bool b)) :
    should_send l cfg first = true ↔ (l ≠ [] ∨ b = true ∨ first = true) := by
  unfold should_send
  rw [h]
  cases l <;> cases b <;> cases first <;> simp [truthy]

/-- Concrete instance, the two spec scenarios: empty filtered list and
flag false give false on an ordinary run and true on a first run. -/
theorem should_send_scenarios :
    should_send [] cfgNoSend false = false ∧ should_send [] cfgNoSend true = true := by
  have h1 := should_send_iff [] cfgNoSend false false rfl
  have h2 := should_send_iff [] cfgNoSend false true rfl
  constructor
  · by_contra hc
    have := h1.mp (by revert hc; cases hs : should_send [] cfgNoSend false <;> simp [hs])
    rcases this with h | h | h
    · exact h rfl
    · exact Bool.false_ne_true h
    · exact Bool.false_ne_true h
  · exact h2.mpr (Or.inr (Or.inr rfl))

/-- C7 counterexample: the claimed first-match reading of the
department code is refuted by the source behaviour. With the configured
set containing only 75, a record whose departement field (the first of
the two field names, and present) holds 92 and whose code_departement
field holds 75 is kept by the department stage, although its department
code under the first-match reading is 92, which is not in the set. The
source tests membership of both field values independently rather than
resolving one code first. -/
theorem dept_first_match_counterexample :
    deptStage flDept75 [recDept9275] = [recDept9275]
    ∧ deptCodeFirstSpec recDept9275 = some (JVal.str "92")
    ∧ memDept flDept75.departements (JVal.str "92") = false
    ∧ flDept75.departements = ["75"] :=
  ⟨rfl, rfl, rfl, rfl⟩

/-- C7 amended: when the configured department set is non-empty, the
department stage keeps a record if and only if the value of its
departement field or the value of its code_departement field is a
member of the set, each field tested independently; when the set is
empty every record passes through. -/
theorem dept_stage_membership (fl : Filters) (fs : List Rec) :
    (fl.departements = [] → deptStage fl fs = fs)
    ∧ (fl.departements ≠ [] →
        deptStage fl fs = fs.filter (fun f =>
          memDept fl.departements (getVal f "departement") ||
          memDept fl.departements (getVal f "code_departement"))) := by
  constructor
  · intro h
    unfold deptStage
    rw [h]
    rfl
  · intro h
    unfold deptStage
    rw [isEmpty_false_of_ne_nil h]
    rfl

/-- Concrete instance of the amended department stage: with set 75, a
record in 75 is kept and a record in 92 is dropped. -/
theorem dept_stage_membership_witness :
    deptStage flDept75 [recDept75, recDept92] = [recDept75] := by
  have h := (dept_stage_membership flDept75 [recDept75, recDept92]).2
    (List.cons_ne_nil _ _)
  rw [h]
  rfl

theorem typeStage_sublist (fl : Filters) (fs : List Rec) :
    List.Sublist (typeStage fl fs) fs := by
  unfold typeStage
  split
  · exact List.Sublist.refl _
  · exact List.filter_sublist _

theorem statutStage_sublist (fl : Filters) (fs : List Rec) :
    List.Sublist (statutStage fl fs) fs := by
  unfold statutStage
  split
  · exact List.Sublist.refl _
  · exact List.filter_sublist _

theorem includeStage_sublist (fl : Filters) (fs : List Rec) :
    List.Sublist (includeStage fl fs) fs := by
  unfold includeStage
  split
  · exact List.Sublist.refl _
  · exact List.filter_sublist _

theorem excludeStage_sublist (fl : Filters) (fs : List Rec) :
    List.Sublist (excludeStage fl fs) fs := by
  unfold excludeStage
  split
  · exact List.Sublist.refl _
  · exact List.filter_sublist _

theorem deptStage_sublist (fl : Filters) (fs : List Rec) :
    List.Sublist (deptStage fl fs) fs := by
  unfold deptStage
  split
  · exact List.Sublist.refl _
  · exact List.filter_sublist _

theorem erase_setKey (r : Rec) (k : String) (v : JVal) :
    eraseKey k (setKey r k v) = eraseKey k r := by
  induction r with
  | nil => simp [setKey, eraseKey]
  | cons p t ih =>
    obtain ⟨k', v'⟩ := p
    by_cases h : k' = k
    · subst h
      simp [setKey, eraseKey]
    · have step : ∀ l : Rec, eraseKey k ((k', v') :: l) = (k', v') :: eraseKey k l := by
        intro l
        simp [eraseKey, List.filter_cons, h]
      have hs : setKey ((k', v') :: t) k v = (k', v') :: setKey t k v := by
        simp [setKey, h]
      rw [hs, step, step, ih]

theorem distLoop_eq_filterMap (dist : ℚ → ℚ → ℚ → ℚ → ℚ) (mx hla hlo : ℚ)
    (fs : List Rec) :
    distLoop dist mx hla hlo fs = fs.filterMap (fun f =>
      match resolveLatLon f with
      | none => none
      | some (la, lo) =>
        if dist hla hlo la lo ≤ mx
        then some (setKey f "_distance_km" (JVal.num (round1 (dist hla hlo la lo))))
        else none) := by
  induction fs with
  | nil => rfl
  | cons f t ih =>
    rw [List.filterMap_cons]
    cases h : resolveLatLon f with
    | none => simp only [distLoop, h, ih]
    | some p =>
      obtain ⟨la, lo⟩ := p
      by_cases hd : dist hla hlo la lo ≤ mx
      · simp only [distLoop, h, if_pos hd, ih]
      · simp only [distLoop, h, if_neg hd, ih]

theorem distLoop_map_erase (dist : ℚ → ℚ → ℚ → ℚ → ℚ) (mx hla hlo : ℚ)
    (fs : List Rec) :
    List.Sublist ((distLoop dist mx hla hlo fs).map (eraseKey "_distance_km"))
      (fs.map (eraseKey "_distance_km")) := by
  induction fs with
  | nil => exact List.Sublist.refl _
  | cons f t ih =>
    rw [List.map_cons]
    cases h : resolveLatLon f with
    | none =>
      simp only [distLoop, h]
      exact ih.cons _
    | some p =>
      obtain ⟨la, lo⟩ := p
      by_cases hd : dist hla hlo la lo ≤ mx
      · simp only [distLoop, h, if_pos hd, List.map_cons, erase_setKey]
        exact ih.cons₂ _
      · simp only [distLoop, h, if_neg hd]
        exact ih.cons _

theorem distLoop_mem (dist : ℚ → ℚ → ℚ → ℚ → ℚ) (mx hla hlo : ℚ)
    (fs : List Rec) (r : Rec) (hr : r ∈ distLoop dist mx hla hlo fs) :
    ∃ s ∈ fs, ∃ d : ℚ, r = setKey s "_distance_km" (JVal.num d) := by
  induction fs with
  | nil => cases hr
  | cons f t ih =>
    cases h : resolveLatLon f with
    | none =>
      rw [distLoop, h] at hr
      obtain ⟨s, hs, hd⟩ := ih hr
      exact ⟨s, List.mem_cons_of_mem _ hs, hd⟩
    | some p =>
      obtain ⟨la, lo⟩ := p
      rw [distLoop, h] at hr
      dsimp only at hr
      by_cases hd : dist hla hlo la lo ≤ mx
      · rw [if_pos hd] at hr
        rcases List.mem_cons.mp hr with he | ht
        · exact ⟨f, List.mem_cons_self _ _, round1 (dist hla hlo la lo), he⟩
        · obtain ⟨s, hs, hd'⟩ := ih ht
          exact ⟨s, List.mem_cons_of_mem _ hs, hd'⟩
      · rw [if_neg hd] at hr
        obtain ⟨s, hs, hd'⟩ := ih hr
        exact ⟨s, List.mem_cons_of_mem _ hs, hd'⟩

theorem distActive_true_elim (fl : Filters) (h : distActive fl = true) :
    ∃ mx hla hlo : ℚ, fl.max_distance_km = some mx ∧ fl.home_lat = some hla
      ∧ fl.home_lon = some hlo ∧ mx ≠ 0 ∧ hla ≠ 0 ∧ hlo ≠ 0 := by
  unfold distActive at h
  cases hm : fl.max_distance_km with
  | none => rw [hm] at h; cases h
  | some mx =>
    cases hl : fl.home_lat with
    | none => rw [hm, hl] at h; cases h
    | some hla =>
      cases ho : fl.home_lon with
      | none => rw [hm, hl, ho] at h; cases h
      | some hlo =>
        rw [hm, hl, ho] at h
        simp only [Bool.and_eq_true, decide_eq_true_eq] at h
        exact ⟨mx, hla, hlo, rfl, rfl, rfl, h.1.1, h.1.2, h.2⟩

theorem distanceStage_inactive (dist : ℚ → ℚ → ℚ → ℚ → ℚ) (fl : Filters)
    (fs : List Rec) (h : distActive fl = false) :
    distanceStage dist fl fs = fs := by
  unfold distanceStage
  unfold distActive at h
  cases hm : fl.max_distance_km with
  | none => rfl
  | some mx =>
    cases hl : fl.home_lat with
    | none => rfl
    | some hla =>
      cases ho : fl.home_lon with
      | none => rfl
      | some hlo =>
        rw [hm, hl, ho] at h
        simp only [Bool.and_eq_false_iff, decide_eq_false_iff_not, not_not] at h
        dsimp only
        rw [if_neg]
        intro ⟨h1, h2, h3⟩
        rcases h with (h | h) | h
        · exact h1 h
        · exact h2 h
        · exact h3 h

theorem distanceStage_active (dist : ℚ → ℚ → ℚ → ℚ → ℚ) (fl : Filters)
    (fs : List Rec) (mx hla hlo : ℚ)
    (hm : fl.max_distance_km = some mx) (hl : fl.home_lat = some hla)
    (ho : fl.home_lon = some hlo) (h1 : mx ≠ 0) (h2 : hla ≠ 0) (h3 : hlo ≠ 0) :
    distanceStage dist fl fs = distLoop dist mx hla hlo fs := by
  unfold distanceStage
  rw [hm, hl, ho]
  dsimp only
  exact if_pos ⟨h1, h2, h3⟩

theorem distActive_eq_truthy (fl : Filters) :
    distActive fl =
      (truthyOpt fl.max_distance_km && truthyOpt fl.home_lat && truthyOpt fl.home_lon) := by
  unfold distActive truthyOpt
  cases fl.max_distance_km <;> cases fl.home_lat <;> cases fl.home_lon <;> simp

theorem distanceStage_map_erase (dist : ℚ → ℚ → ℚ → ℚ → ℚ) (fl : Filters)
    (fs : List Rec) :
    List.Sublist ((distanceStage dist fl fs).map (eraseKey "_distance_km"))
      (fs.map (eraseKey "_distance_km")) := by
  cases h : distActive fl with
  | false =>
    rw [distanceStage_inactive dist fl fs h]
  | true =>
    obtain ⟨mx, hla, hlo, hm, hl, ho, h1, h2, h3⟩ := distActive_true_elim fl h
    rw [distanceStage_active dist fl fs mx hla hlo hm hl ho h1 h2 h3]
    exact distLoop_map_erase dist mx hla hlo fs

theorem distanceStage_length (dist : ℚ → ℚ → ℚ → ℚ → ℚ) (fl : Filters)
    (fs : List Rec) :
    (distanceStage dist fl fs).length ≤ fs.length := by
  have h := (distanceStage_map_erase dist fl fs).length_le
  simpa using h

theorem chain_sublist (fl : Filters) (fs : List Rec) :
    List.Sublist
      (excludeStage fl (includeStage fl (statutStage fl (typeStage fl (deptStage fl fs)))))
      fs :=
  ((((excludeStage_sublist _ _).trans (includeStage_sublist _ _)).trans
    (statutStage_sublist _ _)).trans (typeStage_sublist _ _)).trans (deptStage_sublist _ _)

/-- C3: each filter stage returns a subsequence of its input — for the
five predicate stages literally, for the distance stage up to the
attached distance annotation, since in the source the kept records are
the same objects mutated in place — so output size is at most input
size at every stage and no stage can re-admit a record dropped earlier;
and a stage whose configuration parameter is empty or null leaves its
input, and hence the record count, unchanged. -/
theorem filter_stages_narrowing (dist : ℚ → ℚ → ℚ → ℚ → ℚ) (fl : Filters)
    (fs : List Rec) :
    List.Sublist (deptStage fl fs) fs
    ∧ List.Sublist (typeStage fl fs) fs
    ∧ List.Sublist (statutStage fl fs) fs
    ∧ List.Sublist (includeStage fl fs) fs
    ∧ List.Sublist (excludeStage fl fs) fs
    ∧ List.Sublist ((distanceStage dist fl fs).map (eraseKey "_distance_km"))
        (fs.map (eraseKey "_distance_km"))
    ∧ (deptStage fl fs).length ≤ fs.length
    ∧ (typeStage fl fs).length ≤ fs.length
    ∧ (statutStage fl fs).length ≤ fs.length
    ∧ (includeStage fl fs).length ≤ fs.length
    ∧ (excludeStage fl fs).length ≤ fs.length
    ∧ (distanceStage dist fl fs).length ≤ fs.length
    ∧ (fl.departements = [] → deptStage fl fs = fs)
    ∧ (fl.types_formation = [] → typeStage fl fs = fs)
    ∧ (fl.statut = [] → statutStage fl fs = fs)
    ∧ (fl.keywords_include = [] → includeStage fl fs = fs)
    ∧ (fl.keywords_exclude = [] → excludeStage fl fs = fs)
    ∧ (distActive fl = false → distanceStage dist fl fs = fs) := by
  refine ⟨deptStage_sublist fl fs, typeStage_sublist fl fs, statutStage_sublist fl fs,
    includeStage_sublist fl fs, excludeStage_sublist fl fs,
    distanceStage_map_erase dist fl fs,
    (deptStage_sublist fl fs).length_le, (typeStage_sublist fl fs).length_le,
    (statutStage_sublist fl fs).length_le, (includeStage_sublist fl fs).length_le,
    (excludeStage_sublist fl fs).length_le, distanceStage_length dist fl fs,
    ?_, ?_, ?_, ?_, ?_, distanceStage_inactive dist fl fs⟩
  · intro h
    simp [deptStage, h]
  · intro h
    simp [typeStage, h]
  · intro h
    simp [statutStage, h]
  · intro h
    simp [includeStage, h]
  · intro h
    simp [excludeStage, h]

/-- Concrete instance: an inactive department stage passes the input
through, and the exclude stage never grows its input. -/
theorem filter_stages_narrowing_witness :
    deptStage flDist [recNear] = [recNear]
    ∧ (excludeStage flDist [recNear]).length ≤ 1 := by
  have h := filter_stages_narrowing dist0 flDist [recNear]
  obtain ⟨_, _, _, _, _, _, _, _, _, _, h11, _, hdept, _, _, _, _, _⟩ := h
  exact ⟨hdept rfl, h11⟩

/-- C2: the distance stage is active exactly when the configured
maximum distance and both home-coordinate components are truthy; when
inactive it passes records through untouched, and then the whole filter
chain emits only unmodified input records, so nothing is annotated with
a distance; when active it keeps exactly the records with a resolvable
truthy numeric coordinate pair (looked up as lat or latitude and lon or
longitude inside the coordonnees-or-coordinates container) whose
distance to the home coordinates is at most the maximum, attaching the
one-decimal rounded distance, and drops every record without a
resolvable pair. Stated for an arbitrary distance oracle, hence for the
haversine of calculate_distance in particular. -/
theorem distance_stage_spec (dist : ℚ → ℚ → ℚ → ℚ → ℚ) (fl : Filters)
    (fs : List Rec) (c : Config) :
    distActive fl
      = (truthyOpt fl.max_distance_km && truthyOpt fl.home_lat && truthyOpt fl.home_lon)
    ∧ (distActive fl = false → distanceStage dist fl fs = fs)
    ∧ (∀ mx hla hlo : ℚ, fl.max_distance_km = some mx → fl.home_lat = some hla →
        fl.home_lon = some hlo → mx ≠ 0 → hla ≠ 0 → hlo ≠ 0 →
        distanceStage dist fl fs = fs.filterMap (fun f =>
          match resolveLatLon f with
          | none => none
          | some (la, lo) =>
            if dist hla hlo la lo ≤ mx
            then some (setKey f "_distance_km" (JVal.num (round1 (dist hla hlo la lo))))
            else none))
    ∧ (distActive c.filters = false → List.Sublist (apply_filters dist fs c) fs) := by
  refine ⟨distActive_eq_truthy fl, distanceStage_inactive dist fl fs, ?_, ?_⟩
  · intro mx hla hlo hm hl ho h1 h2 h3
    rw [distanceStage_active dist fl fs mx hla hlo hm hl ho h1 h2 h3]
    exact distLoop_eq_filterMap dist mx hla hlo fs
  · intro h
    unfold apply_filters
    by_cases he : fs.isEmpty = true
    · rw [if_pos he]
      exact List.nil_sublist fs
    · rw [if_neg he]
      dsimp only
      have e := distanceStage_inactive dist c.filters
        (excludeStage c.filters (includeStage c.filters (statutStage c.filters
          (typeStage c.filters (deptStage c.filters fs))))) h
      rw [e]
      exact chain_sublist c.filters fs

/-- Concrete instance of the active distance stage under the oracle
dist0: the near record is kept and annotated with its rounded distance,
the far record is dropped. -/
theorem distance_stage_spec_witness :
    distanceStage dist0 flDist [recNear, recFar]
      = [setKey recNear "_distance_km" (JVal.num 2)] := by
  have h := (distance_stage_spec dist0 flDist [recNear, recFar] cfg0).2.2.1
  rw [h 10 1 1 rfl rfl rfl (by norm_num) (by norm_num) (by norm_num)]
  have hr : round1 (dist0 1 1 2 3) = 2 := by
    norm_num [round1, dist0]
  calc List.filterMap (fun f =>
        match resolveLatLon f with
        | none => none
        | some (la, lo) =>
          if dist0 1 1 la lo ≤ 10
          then some (setKey f "_distance_km" (JVal.num (round1 (dist0 1 1 la lo))))
          else none) [recNear, recFar]
      = [setKey recNear "_distance_km" (JVal.num (round1 (dist0 1 1 2 3)))] := rfl
    _ = [setKey recNear "_distance_km" (JVal.num 2)] := by rw [hr]

/-- C9: the filter chain mutates no field of any record except possibly
attaching the computed distance annotation: every record the chain
emits is either literally one of the input records, or, only when the
distance stage is active, an input record with the _distance_km key
set and every other field unchanged. -/
theorem apply_filters_frame (dist : ℚ → ℚ → ℚ → ℚ → ℚ) (fs : List Rec) (c : Config) :
    ∀ r ∈ apply_filters dist fs c, ∃ s ∈ fs,
      r = s ∨ (distActive c.filters = true
        ∧ ∃ d : ℚ, r = setKey s "_distance_km" (JVal.num d)) := by
  intro r hr
  unfold apply_filters at hr
  by_cases he : fs.isEmpty = true
  · rw [if_pos he] at hr
    cases hr
  · rw [if_neg he] at hr
    dsimp only at hr
    cases h : distActive c.filters with
    | false =>
      rw [distanceStage_inactive dist c.filters _ h] at hr
      exact ⟨r, (chain_sublist c.filters fs).subset hr, Or.inl rfl⟩
    | true =>
      obtain ⟨mx, hla, hlo, hm, hl, ho, h1, h2, h3⟩ := distActive_true_elim c.filters h
      rw [distanceStage_active dist c.filters _ mx hla hlo hm hl ho h1 h2 h3] at hr
      obtain ⟨s, hs, d, hd⟩ := distLoop_mem dist mx hla hlo _ r hr
      exact ⟨s, (chain_sublist c.filters fs).subset hs, Or.inr ⟨rfl, d, hd⟩⟩

/-- Concrete instance of the frame property on a fully inactive
configuration. -/
theorem apply_filters_frame_witness :
    ∃ s ∈ [recNear], recNear = s
      ∨ (distActive cfg0.filters = true
        ∧ ∃ d : ℚ, recNear = setKey s "_distance_km" (JVal.num d)) :=
  apply_filters_frame dist0 [recNear] cfg0 recNear (List.mem_cons_self _ _)

/-- C10: when the distance stage is active, coordinate resolution tests
truthiness rather than numeric presence: a record whose resolved
latitude or longitude is falsy — in particular the value 0, which is
falsy — is unresolvable, as is a record whose coordinate container is
absent or not a mapping; and an unresolvable record contributes nothing
to the stage output, that is, it is dropped. A record on the equator or
prime meridian is therefore treated as having no coordinates. -/
theorem distance_truthiness_drops (dist : ℚ → ℚ → ℚ → ℚ → ℚ) (fl : Filters) (f : Rec) :
    (∀ cs : List (String × JVal), coordObj f = JVal.obj cs →
      truthy (pyOr (getVal cs "lat") (getVal cs "latitude")) = false →
      resolveLatLon f = none)
    ∧ (∀ cs : List (String × JVal), coordObj f = JVal.obj cs →
      truthy (pyOr (getVal cs "lon") (getVal cs "longitude")) = false →
      resolveLatLon f = none)
    ∧ (∀ a b : JVal, pyOr a b = JVal.num 0 → truthy (pyOr a b) = false)
    ∧ (lookupKey f "coordonnees" = none → lookupKey f "coordinates" = none →
        resolveLatLon f = none)
    ∧ ((∀ cs : List (String × JVal), coordObj f ≠ JVal.obj cs) → resolveLatLon f = none)
    ∧ (distActive fl = true → resolveLatLon f = none →
        ∀ pre post : List Rec,
          distanceStage dist fl (pre ++ f :: post) = distanceStage dist fl (pre ++ post)) := by
  refine ⟨?_, ?_, ?_, ?_, ?_, ?_⟩
  · intro cs hc hlat
    unfold resolveLatLon
    rw [hc]
    dsimp only
    rw [hlat]
    simp
  · intro cs hc hlon
    unfold resolveLatLon
    rw [hc]
    dsimp only
    rw [hlon]
    simp
  · intro a b hab
    rw [hab]
    rfl
  · intro h1 h2
    unfold resolveLatLon coordObj getVal
    rw [h1, h2]
    rfl
  · intro h
    unfold resolveLatLon
    cases hc : coordObj f with
    | obj cs => exact absurd hc (h cs)
    | null => rfl
    | bool b => rfl
    | num q => rfl
    | str s => rfl
    | arr xs => rfl
  · intro hact hnone pre post
    obtain ⟨mx, hla, hlo, hm, hl, ho, h1, h2, h3⟩ := distActive_true_elim fl hact
    rw [distanceStage_active dist fl _ mx hla hlo hm hl ho h1 h2 h3,
        distanceStage_active dist fl _ mx hla hlo hm hl ho h1 h2 h3]
    induction pre with
    | nil =>
      simp only [List.nil_append]
      rw [distLoop, hnone]
    | cons p t ih =>
      simp only [List.cons_append]
      cases hp : resolveLatLon p with
      | none =>
        rw [distLoop, hp, distLoop, hp]
        exact ih
      | some q =>
        obtain ⟨la, lo⟩ := q
        rw [distLoop, hp, distLoop, hp]
        dsimp only
        by_cases hd : dist hla hlo la lo ≤ mx
        · rw [if_pos hd, if_pos hd, ih]
        · rw [if_neg hd, if_neg hd]
          exact ih

/-- Concrete instance: a record whose latitude field is exactly 0 is
unresolvable and is dropped by the active distance stage. -/
theorem distance_truthiness_witness :
    resolveLatLon recZero = none
    ∧ distanceStage dist0 flDist [recZero, recNear]
        = distanceStage dist0 flDist [recNear] := by
  have h := distance_truthiness_drops dist0 flDist recZero
  have hz : resolveLatLon recZero = none :=
    h.1 [("lat", JVal.num 0), ("lon", JVal.num 3)] rfl rfl
  refine ⟨hz, ?_⟩
  have hd := h.2.2.2.2.2 (by rfl) hz [] [recNear]
  simpa using hd
